import Mathlib

/-! A verification development for the openrouter command-line client.

The program (`main.go`) reads one line from standard input, sends it as a chat
request to a fixed HTTP endpoint, decodes the JSON answer and prints the first
choice.  Everything outside the program is collected in a `World`: the process
environment, the `.env` file, standard input, the HTTP peer and the texts the
libraries produce.  Each function of `main.go` becomes a function of the world
that returns what the Go function returns together with the HTTP calls it made.
The standard library's `encoding/json` is modelled as far as the two structs
of the program use it.
-/

namespace OpenRouter

/-! ## Constants and data model (`main.go`, lines 17-36) -/

/-- The constant `URL`. -/
def URL : String := "https://openrouter.ai/api/v1/chat/completions"

/-- The constant `MODEL`. -/
def MODEL : String := "anthropic/claude-3-haiku"

/-- The struct `Message`. -/
structure Message where
  Role : String
  Content : String
  deriving DecidableEq, Repr

/-- A Go slice as far as `json.Marshal` and `append` can tell: the nil slice,
or a slice that is not nil with its elements, possibly none. -/
inductive Slice (α : Type) where
  | nil
  | of (elems : List α)
  deriving DecidableEq, Repr

/-- The elements of a slice; the nil slice has none. -/
def Slice.elems {α : Type} : Slice α → List α
  | .nil => []
  | .of l => l

/-- The builtin `append(s, x)` with one element: the result is never nil. -/
def Slice.append {α : Type} (s : Slice α) (x : α) : Slice α :=
  .of (s.elems ++ [x])

/-- The struct `APIRequest`. -/
structure APIRequest where
  Model : String
  Messages : Slice Message
  deriving DecidableEq, Repr

/-- The anonymous element struct of `APIResponse.Choices`.  The program only
measures `Choices` and reads its first element, so a list stands for it. -/
structure Choice where
  Message : Message
  deriving DecidableEq, Repr

/-- The struct `APIResponse`. -/
structure APIResponse where
  Choices : List Choice
  deriving DecidableEq, Repr

/-- The zero value of `Message` (`Message{}`). -/
def Message.zero : Message := ⟨"", ""⟩

/-- The zero value of the element struct of `Choices`. -/
def Choice.zero : Choice := ⟨Message.zero⟩

/-- The zero value of `APIResponse` (`var apiResponse APIResponse`). -/
def APIResponse.zero : APIResponse := ⟨[]⟩

/-! ## Outcomes -/

/-- How a Go function call ends: it returns a value, or `log.Fatal` ends the
process (the text is logged to standard error and the process exits with
status 1). -/
inductive Outcome (α : Type) where
  | ret (a : α)
  | fatal (msg : String)
  deriving DecidableEq, Repr

/-! ## The process environment and the `.env` file -/

/-- The process environment: variable names with their values. -/
abbrev Environ := List (String × String)

/-- The lookup `os.LookupEnv`. -/
def LookupEnv (env : Environ) (key : String) : Option String :=
  (env.find? (fun kv => kv.1 == key)).map (fun kv => kv.2)

/-- The lookup `os.Getenv`: the value, or the empty string when unset. -/
def Getenv (env : Environ) (key : String) : String :=
  (LookupEnv env key).getD ""

/-- The call `os.Setenv`, whose error `godotenv` drops: a name that is empty or
holds `=` or NUL, or a value that holds NUL, leaves the environment as it is. -/
def Setenv (env : Environ) (key value : String) : Environ :=
  if key.isEmpty || key.toList.any (fun c => c == '=' || c == '\x00')
      || value.toList.any (fun c => c == '\x00') then env
  else (key, value) :: env.filter (fun kv => kv.1 != key)

/-- The call `godotenv.Load()`.  The argument `file` is the key/value map read
from `.env`, or `none` when the file cannot be opened or parsed, in which case
`Load` returns an error.  A variable the process environment already holds is
not overwritten. -/
def godotenvLoad (file : Option (List (String × String))) (env : Environ) :
    Except String Environ :=
  match file with
  | none => .error "open .env: no such file or directory"
  | some kvs =>
    .ok (kvs.foldl
      (fun cur kv => if (LookupEnv env kv.1).isSome then cur else Setenv cur kv.1 kv.2) env)

/-! ## JSON text, as `encoding/json` reads it

`json.Unmarshal` first checks the whole text against the JSON grammar and then
stores the value into the target.  The text is modelled as a `String` (a body
that is not valid UTF-8 is outside the model).  The grammar check is a pass
over the characters that yields tokens, followed by a pass over the tokens
that builds the value; both are folds, so they are total. -/

/-- A JSON value.  Numbers carry no payload: no target field is numeric. -/
inductive JSON where
  | null
  | bool (b : Bool)
  | num
  | str (s : String)
  | arr (items : List JSON)
  | obj (members : List (String × JSON))
  deriving Repr

/-- The tokens of a JSON text. -/
inductive Token where
  | lbrace | rbrace | lbrack | rbrack | colon | comma
  | str (s : String)
  | num | tTrue | tFalse | tNull
  deriving DecidableEq, Repr

/-- One unit of a string literal: a character, or the code unit of a `\uXXXX`
escape. -/
inductive StrUnit where
  | chr (c : Char)
  | esc (n : Nat)
  deriving DecidableEq, Repr

/-- The rune U+FFFD that replaces an unpaired surrogate. -/
def replacementChar : Char := Char.ofNat 0xFFFD

/-- High (leading) surrogate code units. -/
def isHighSurrogate (n : Nat) : Bool := 0xD800 ≤ n && n < 0xDC00

/-- Low (trailing) surrogate code units. -/
def isLowSurrogate (n : Nat) : Bool := 0xDC00 ≤ n && n < 0xE000

/-- The rune of a surrogate pair (`utf16.DecodeRune`). -/
def decodeSurrogates (hi lo : Nat) : Char :=
  Char.ofNat ((hi - 0xD800) * 0x400 + (lo - 0xDC00) + 0x10000)

/-- The text of a string literal from its units.  The first argument is a high
surrogate escape still waiting for its partner.  A `\uXXXX` surrogate that is
not followed by the escape of a matching low surrogate becomes U+FFFD. -/
def unquote : Option Nat → List StrUnit → List Char
  | none, [] => []
  | some _, [] => [replacementChar]
  | none, .chr c :: us => c :: unquote none us
  | some _, .chr c :: us => replacementChar :: c :: unquote none us
  | none, .esc n :: us =>
    if isHighSurrogate n then unquote (some n) us
    else if isLowSurrogate n then replacementChar :: unquote none us
    else Char.ofNat n :: unquote none us
  | some hi, .esc n :: us =>
    if isLowSurrogate n then decodeSurrogates hi n :: unquote none us
    else if isHighSurrogate n then replacementChar :: unquote (some n) us
    else replacementChar :: Char.ofNat n :: unquote none us

/-- The value of a hexadecimal digit, in either case. -/
def hexVal (c : Char) : Option Nat :=
  if '0' ≤ c ∧ c ≤ '9' then some (c.toNat - '0'.toNat)
  else if 'a' ≤ c ∧ c ≤ 'f' then some (c.toNat - 'a'.toNat + 10)
  else if 'A' ≤ c ∧ c ≤ 'F' then some (c.toNat - 'A'.toNat + 10)
  else none

/-- The states of the character pass: between tokens, inside a string literal
(after a backslash, after `\u` with `k` digits read), inside a literal name,
and the states of a number. -/
inductive Lex where
  | start
  | str (acc : List StrUnit)
  | strEsc (acc : List StrUnit)
  | strU (acc : List StrUnit) (k n : Nat)
  | lit (rest : List Char) (t : Token)
  | neg | zero | int | dot | frac | exp | expSign | expDigits
  deriving Repr

/-- JSON white space. -/
def isSpace (c : Char) : Bool := c == ' ' || c == '\t' || c == '\r' || c == '\n'

/-- Decimal digits. -/
def isDigit (c : Char) : Bool := '0' ≤ c && c ≤ '9'

/-- A character met between tokens. -/
def lexStart (toks : List Token) (c : Char) : Option (Lex × List Token) :=
  if isSpace c then some (.start, toks)
  else if c == '{' then some (.start, .lbrace :: toks)
  else if c == '}' then some (.start, .rbrace :: toks)
  else if c == '[' then some (.start, .lbrack :: toks)
  else if c == ']' then some (.start, .rbrack :: toks)
  else if c == ':' then some (.start, .colon :: toks)
  else if c == ',' then some (.start, .comma :: toks)
  else if c == '"' then some (.str [], toks)
  else if c == '-' then some (.neg, toks)
  else if c == '0' then some (.zero, toks)
  else if isDigit c then some (.int, toks)
  else if c == 't' then some (.lit ['r', 'u', 'e'] .tTrue, toks)
  else if c == 'f' then some (.lit ['a', 'l', 's', 'e'] .tFalse, toks)
  else if c == 'n' then some (.lit ['u', 'l', 'l'] .tNull, toks)
  else none

/-- One character of the text; `none` is a syntax error.  Tokens are collected
in reverse. -/
def lexStep (st : Lex × List Token) (c : Char) : Option (Lex × List Token) :=
  let toks := st.2
  match st.1 with
  | .start => lexStart toks c
  | .str acc =>
    if c == '"' then some (.start, .str (String.mk (unquote none acc.reverse)) :: toks)
    else if c == '\\' then some (.strEsc acc, toks)
    else if c.toNat < 0x20 then none
    else some (.str (.chr c :: acc), toks)
  | .strEsc acc =>
    if c == '"' || c == '\\' || c == '/' then some (.str (.chr c :: acc), toks)
    else if c == 'b' then some (.str (.chr '\x08' :: acc), toks)
    else if c == 'f' then some (.str (.chr '\x0c' :: acc), toks)
    else if c == 'n' then some (.str (.chr '\n' :: acc), toks)
    else if c == 'r' then some (.str (.chr '\r' :: acc), toks)
    else if c == 't' then some (.str (.chr '\t' :: acc), toks)
    else if c == 'u' then some (.strU acc 0 0, toks)
    else none
  | .strU acc k n =>
    match hexVal c with
    | none => none
    | some d =>
      if k == 3 then some (.str (.esc (n * 16 + d) :: acc), toks)
      else some (.strU acc (k + 1) (n * 16 + d), toks)
  | .lit rest t =>
    match rest with
    | [] => none
    | r :: rs =>
      if c == r then (if rs.isEmpty then some (.start, t :: toks) else some (.lit rs t, toks))
      else none
  | .neg =>
    if c == '0' then some (.zero, toks)
    else if isDigit c then some (.int, toks)
    else none
  | .zero =>
    if c == '.' then some (.dot, toks)
    else if c == 'e' || c == 'E' then some (.exp, toks)
    else lexStart (.num :: toks) c
  | .int =>
    if isDigit c then some (.int, toks)
    else if c == '.' then some (.dot, toks)
    else if c == 'e' || c == 'E' then some (.exp, toks)
    else lexStart (.num :: toks) c
  | .dot => if isDigit c then some (.frac, toks) else none
  | .frac =>
    if isDigit c then some (.frac, toks)
    else if c == 'e' || c == 'E' then some (.exp, toks)
    else lexStart (.num :: toks) c
  | .exp =>
    if c == '+' || c == '-' then some (.expSign, toks)
    else if isDigit c then some (.expDigits, toks)
    else none
  | .expSign => if isDigit c then some (.expDigits, toks) else none
  | .expDigits =>
    if isDigit c then some (.expDigits, toks)
    else lexStart (.num :: toks) c

/-- The end of the text: a number may end there, a string or a name may not. -/
def lexEnd (st : Lex × List Token) : Option (List Token) :=
  match st.1 with
  | .start => some st.2.reverse
  | .zero | .int | .frac | .expDigits => some (Token.num :: st.2).reverse
  | _ => none

/-- The tokens of a text, or `none` for a syntax error. -/
def tokenize (cs : List Char) : Option (List Token) :=
  (cs.foldlM lexStep (Lex.start, [])).bind lexEnd

/-- An open array or object: what it holds so far (in reverse) and, for an
object, the key whose value is awaited. -/
inductive Frame where
  | arr (items : List JSON)
  | obj (members : List (String × JSON)) (key : String)

/-- What the token pass expects next: a value (`first` right after `[`), a
key (`first` right after the opening brace), a colon, a comma or a closing
bracket, or nothing more. -/
inductive Mode where
  | value (first : Bool)
  | key (first : Bool)
  | colon
  | after
  | done (j : JSON)

/-- The nesting limit of the library's scanner. -/
def maxNestingDepth : Nat := 10000

/-- A finished value goes into the innermost open array or object, or ends the
text. -/
def complete (v : JSON) : List Frame → List Frame × Mode
  | [] => ([], .done v)
  | .arr items :: fs => (.arr (v :: items) :: fs, .after)
  | .obj members key :: fs => (.obj ((key, v) :: members) "" :: fs, .after)

/-- One token; `none` is a syntax error. -/
def parseStep (st : List Frame × Mode) (t : Token) : Option (List Frame × Mode) :=
  let stack := st.1
  match st.2 with
  | .value first =>
    match t with
    | .str s => some (complete (.str s) stack)
    | .num => some (complete .num stack)
    | .tTrue => some (complete (.bool true) stack)
    | .tFalse => some (complete (.bool false) stack)
    | .tNull => some (complete .null stack)
    | .lbrack =>
      if stack.length + 1 > maxNestingDepth then none
      else some (.arr [] :: stack, .value true)
    | .lbrace =>
      if stack.length + 1 > maxNestingDepth then none
      else some (.obj [] "" :: stack, .key true)
    | .rbrack =>
      match first, stack with
      | true, .arr _ :: fs => some (complete (.arr []) fs)
      | _, _ => none
    | _ => none
  | .key first =>
    match t, stack with
    | .str s, .obj members _ :: fs => some (.obj members s :: fs, .colon)
    | .rbrace, .obj _ _ :: fs => if first then some (complete (.obj []) fs) else none
    | _, _ => none
  | .colon =>
    match t with
    | .colon => some (stack, .value false)
    | _ => none
  | .after =>
    match t, stack with
    | .comma, .arr _ :: _ => some (stack, .value false)
    | .comma, .obj _ _ :: _ => some (stack, .key false)
    | .rbrack, .arr items :: fs => some (complete (.arr items.reverse) fs)
    | .rbrace, .obj members _ :: fs => some (complete (.obj members.reverse) fs)
    | _, _ => none
  | .done _ => none

/-- The value of a token sequence: exactly one value and nothing after it. -/
def parseTokens (toks : List Token) : Option JSON :=
  match toks.foldlM parseStep ([], Mode.value false) with
  | some (_, .done j) => some j
  | _ => none

/-- The value a text denotes, or `none` when the library reports a syntax
error. -/
def parseJSON (data : String) : Option JSON :=
  (tokenize data.toList).bind parseTokens

/-- The check `json.Valid`. -/
def Valid (data : String) : Bool := (parseJSON data).isSome

/-! ## Storing a JSON value into `APIResponse`

The rules of `encoding/json` for a struct target: a member is matched to a
field by its `json` tag, ignoring case; members that match no field are
skipped; `null` leaves a string or a struct as it is and makes a slice empty;
any other value of the wrong JSON type is an `UnmarshalTypeError`.  A key that
occurs again is stored again into the same field, so each function takes the
current value of its target. -/

/-- The two kinds of error `json.Unmarshal` returns for this target. -/
inductive JSONError where
  | SyntaxError
  | UnmarshalTypeError
  deriving DecidableEq, Repr

/-- Simple case folding of the runes that fold to an ASCII letter: the capital
letters, the long s (U+017F) and the Kelvin sign (U+212A). -/
def foldRune (c : Char) : Char :=
  if 'A' ≤ c ∧ c ≤ 'Z' then Char.ofNat (c.toNat + 32)
  else if c = Char.ofNat 0x17F then 's'
  else if c = Char.ofNat 0x212A then 'k'
  else c

/-- Whether an object key names the field whose tag is `name` (a lower-case
ASCII word). -/
def keyMatches (key name : String) : Bool :=
  key.toList.map foldRune == name.toList

/-- A value stored into a `string` field. -/
def decodeString (cur : String) : JSON → Except JSONError String
  | .str s => .ok s
  | .null => .ok cur
  | _ => .error .UnmarshalTypeError

/-- One member of an object stored into a `Message`. -/
def decodeMessageField (m : Message) (kv : String × JSON) : Except JSONError Message :=
  if keyMatches kv.1 "role" then
    (decodeString m.Role kv.2).map (fun r => { m with Role := r })
  else if keyMatches kv.1 "content" then
    (decodeString m.Content kv.2).map (fun c => { m with Content := c })
  else .ok m

/-- A value stored into a `Message`. -/
def decodeMessage (cur : Message) : JSON → Except JSONError Message
  | .obj members => members.foldlM decodeMessageField cur
  | .null => .ok cur
  | _ => .error .UnmarshalTypeError

/-- One member of an object stored into an element of `Choices`. -/
def decodeChoiceField (c : Choice) (kv : String × JSON) : Except JSONError Choice :=
  if keyMatches kv.1 "message" then
    (decodeMessage c.Message kv.2).map (fun m => { c with Message := m })
  else .ok c

/-- A value stored into an element of `Choices`. -/
def decodeChoice (cur : Choice) : JSON → Except JSONError Choice
  | .obj members => members.foldlM decodeChoiceField cur
  | .null => .ok cur
  | _ => .error .UnmarshalTypeError

/-- The elements of an array stored into a slice: element `i` is stored into
the element the slice holds at `i`, or into a zero element past its length,
and the slice ends up as long as the array.  (What the library leaves between
the length and the capacity of a slice it has shortened is not modelled; it
could only be seen by a third occurrence of the same key.) -/
def decodeElems : List Choice → List JSON → Except JSONError (List Choice)
  | _, [] => .ok []
  | cur, j :: js =>
    match decodeChoice (cur.headD Choice.zero) j with
    | .error e => .error e
    | .ok c => (decodeElems cur.tail js).map (fun cs => c :: cs)

/-- A value stored into the field `Choices`. -/
def decodeChoices (cur : List Choice) : JSON → Except JSONError (List Choice)
  | .arr items => decodeElems cur items
  | .null => .ok []
  | _ => .error .UnmarshalTypeError

/-- One member of an object stored into an `APIResponse`. -/
def decodeResponseField (r : APIResponse) (kv : String × JSON) :
    Except JSONError APIResponse :=
  if keyMatches kv.1 "choices" then
    (decodeChoices r.Choices kv.2).map (fun cs => { r with Choices := cs })
  else .ok r

/-- A value stored into an `APIResponse`. -/
def decodeAPIResponse (cur : APIResponse) : JSON → Except JSONError APIResponse
  | .obj members => members.foldlM decodeResponseField cur
  | .null => .ok cur
  | _ => .error .UnmarshalTypeError

/-- The call `json.Unmarshal(body, &apiResponse)` on a fresh `apiResponse`. -/
def Unmarshal (data : String) : Except JSONError APIResponse :=
  match parseJSON data with
  | none => .error .SyntaxError
  | some j => decodeAPIResponse APIResponse.zero j

/-! ## Writing an `APIRequest` as JSON -/

/-- A hexadecimal digit, lower case. -/
def hexDigit (n : Nat) : Char := "0123456789abcdef".toList.getD n '0'

/-- One rune of a string as `json.Marshal` writes it (HTML escaping is on by
default; backspace and form feed are written `\b` and `\f` since Go 1.22,
`\u0008` and `\u000c` before). -/
def encodeRune (c : Char) : List Char :=
  if c == '"' then ['\\', '"']
  else if c == '\\' then ['\\', '\\']
  else if c == '\x08' then ['\\', 'b']
  else if c == '\x0c' then ['\\', 'f']
  else if c == '\n' then ['\\', 'n']
  else if c == '\r' then ['\\', 'r']
  else if c == '\t' then ['\\', 't']
  else if c.toNat < 0x20 || c == '<' || c == '>' || c == '&' then
    ['\\', 'u', '0', '0', hexDigit (c.toNat / 16), hexDigit (c.toNat % 16)]
  else if c == Char.ofNat 0x2028 then ['\\', 'u', '2', '0', '2', '8']
  else if c == Char.ofNat 0x2029 then ['\\', 'u', '2', '0', '2', '9']
  else [c]

/-- A string as a JSON string literal. -/
def encodeString (s : String) : String :=
  String.mk ('"' :: (s.toList.flatMap encodeRune ++ ['"']))

/-- A `Message` as JSON: the fields in declaration order under their tags. -/
def marshalMessage (m : Message) : String :=
  "\x7b\"role\":" ++ encodeString m.Role ++ ",\"content\":" ++ encodeString m.Content ++ "\x7d"

/-- A `[]Message` as JSON: `null` for the nil slice, otherwise the elements
between brackets, separated by commas (`[]` when there are none). -/
def marshalMessages : Slice Message → String
  | .nil => "null"
  | .of ms => "[" ++ ",".intercalate (ms.map marshalMessage) ++ "]"

/-- The call `json.Marshal(requestBody)`.  It cannot fail for a struct of
strings and slices of such structs. -/
def Marshal (r : APIRequest) : Except String String :=
  .ok ("\x7b\"model\":" ++ encodeString r.Model ++ ",\"messages\":"
    ++ marshalMessages r.Messages ++ "\x7d")

/-! ## HTTP -/

/-- An `http.Request` as far as the program sets it. -/
structure HTTPRequest where
  Method : String
  URL : String
  Header : List (String × String)
  Body : String
  deriving DecidableEq, Repr

/-- An `http.Response`: the status code, the bytes of the body, and the error
`io.ReadAll` meets before the end of the body, if any. -/
structure HTTPResponse where
  StatusCode : Nat
  Body : String
  ReadErr : Option String
  deriving DecidableEq, Repr

/-- The call `http.NewRequest`.  For the method `POST` and the constant `URL`,
the only arguments the program passes, the checks of the library succeed. -/
def NewRequest (method url body : String) : Except String HTTPRequest :=
  .ok ⟨method, url, [], body⟩

/-- The call `req.Header.Set`: the value replaces what the key held.  Both
keys the program uses are already in canonical form. -/
def HTTPRequest.SetHeader (req : HTTPRequest) (key value : String) : HTTPRequest :=
  { req with Header := req.Header.filter (fun kv => kv.1 != key) ++ [(key, value)] }

/-- The call `io.ReadAll(resp.Body)`. -/
def ReadAll (resp : HTTPResponse) : Except String String :=
  match resp.ReadErr with
  | some err => .error err
  | none => .ok resp.Body

/-! ## The world and the functions of `main.go` -/

/-- Everything outside the program. -/
structure World where
  /-- The process environment at start. -/
  environ : Environ
  /-- The key/value map of the file `.env`, `none` when it cannot be loaded. -/
  dotenv : Option (List (String × String))
  /-- The bytes on standard input. -/
  stdin : String
  /-- The call `client.Do`: the answer of the peer, or a transport error.  One
  call counts as one HTTP request; what the library does inside the call is
  part of the world. -/
  Do : HTTPRequest → Except String HTTPResponse
  /-- The text `err.Error()` of an error of `encoding/json`. -/
  jsonErrorText : JSONError → String
  /-- The call `markdown.Render(content, lineWidth, leftPad)`. -/
  Render : String → Nat → Nat → String
  /-- The date and time the standard logger writes before a message. -/
  logStamp : String

/-- The result of a function that may use the network: the calls of
`client.Do` it made, in order, and how it ended. -/
structure Run (α : Type) where
  calls : List HTTPRequest
  out : Outcome α

/-- The function `GetAPIKey` (lines 38-49). -/
def GetAPIKey (w : World) : Outcome String :=
  match godotenvLoad w.dotenv w.environ with
  | .error _ => .fatal "Error loading .env file"
  | .ok env =>
    let API_KEY := Getenv env "API_KEY"
    if API_KEY == "" then .fatal "API_KEY is not set"
    else .ret API_KEY

/-- The function `Request` (lines 51-81). -/
def Request (w : World) (requestBody : APIRequest) : Run (Except String String) :=
  match GetAPIKey w with
  | .fatal msg => ⟨[], .fatal msg⟩
  | .ret API_KEY =>
    match Marshal requestBody with
    | .error err => ⟨[], .ret (.error ("error marshaling request body: " ++ err))⟩
    | .ok jsonBody =>
      match NewRequest "POST" URL jsonBody with
      | .error err => ⟨[], .ret (.error ("error creating request: " ++ err))⟩
      | .ok req =>
        let req := req.SetHeader "Authorization" ("Bearer " ++ API_KEY)
        let req := req.SetHeader "Content-Type" "application/json"
        match w.Do req with
        | .error err => ⟨[req], .ret (.error ("error making request: " ++ err))⟩
        | .ok resp =>
          match ReadAll resp with
          | .error err => ⟨[req], .ret (.error ("error reading response body: " ++ err))⟩
          | .ok body => ⟨[req], .ret (.ok body)⟩

/-- The function `GenerateLLMPrompt` (lines 108-114). -/
def GenerateLLMPrompt (prompt : String) : Slice Message :=
  let messages : Slice Message := .of [⟨"system", "You are a helpful assistant"⟩]
  let messages := messages.append ⟨"user", prompt⟩
  messages

/-- The parsing step of `FetchLLM` (lines 95-105): what it returns for the
body `Request` gave it. -/
def FetchLLM.parse (w : World) (body : String) : Except String Message :=
  match Unmarshal body with
  | .error err => .error ("error unmarshaling response: " ++ w.jsonErrorText err)
  | .ok apiResponse =>
    if h : apiResponse.Choices.length = 0 then
      .error "no choices in API response"
    else
      .ok (apiResponse.Choices.get ⟨0, Nat.pos_of_ne_zero h⟩).Message

/-- The function `FetchLLM` (lines 83-106). -/
def FetchLLM (w : World) (prompt : String) : Run (Except String Message) :=
  let messages := GenerateLLMPrompt prompt
  let requestBody : APIRequest := { Model := MODEL, Messages := messages }
  let r := Request w requestBody
  match r.out with
  | .fatal msg => ⟨r.calls, .fatal msg⟩
  | .ret (.error err) => ⟨r.calls, .ret (.error err)⟩
  | .ret (.ok body) => ⟨r.calls, .ret (FetchLLM.parse w body)⟩

/-- The call `reader.ReadString(delim)` on a fresh reader: the text up to and
including the first delimiter, or the error `EOF` when the input ends before
one. -/
def ReadString (input : String) (delim : Char) : Except String String :=
  match input.toList.span (fun c => c != delim) with
  | (_, []) => .error "EOF"
  | (line, d :: _) => .ok (String.mk (line ++ [d]))

/-- How the process ends. -/
inductive Exit where
  | returned
  | exited (code : Nat)
  deriving DecidableEq, Repr

/-- What one run of the program does: the text on standard output, the text
on standard error, the calls of `client.Do`, and how it ends. -/
structure Process where
  stdout : String
  stderr : String
  calls : List HTTPRequest
  exit : Exit
  deriving DecidableEq, Repr

/-- The function `main` (lines 116-130).  `fmt.Print` and `fmt.Printf` write
to standard output; the builtin `println` and the standard logger write to
standard error. -/
def main (w : World) : Process :=
  match ReadString w.stdin '\n' with
  | .error err => ⟨"User: ", err ++ "\n", [], .returned⟩
  | .ok text =>
    let r := FetchLLM w text
    match r.out with
    | .fatal msg => ⟨"User: ", w.logStamp ++ msg ++ "\n", r.calls, .exited 1⟩
    | .ret (.error err) => ⟨"User: ", err ++ "\n", r.calls, .returned⟩
    | .ret (.ok result) =>
      ⟨"User: " ++ (result.Role ++ ":\n\n " ++ w.Render result.Content 120 0 ++ "\n"),
        "", r.calls, .returned⟩

/-! ## The expected shape of a response, and what the decoder rejects -/

/-- The member of an object under a key, spelled exactly. -/
def JSON.member (ms : List (String × JSON)) (key : String) : Option JSON :=
  (ms.find? (fun kv => kv.1 == key)).map (fun kv => kv.2)

/-- Whether a value is a JSON string. -/
def JSON.isStr : JSON → Bool
  | .str _ => true
  | _ => false

/-- The shape of a message in the words of the specification: an object with
a string `role` and a string `content`. -/
def expectedMessageShape : JSON → Bool
  | .obj ms =>
    ((JSON.member ms "role").map JSON.isStr).getD false
      && ((JSON.member ms "content").map JSON.isStr).getD false
  | _ => false

/-- The shape of a choice in the words of the specification: an object with a
`message` of the expected shape. -/
def expectedChoiceShape : JSON → Bool
  | .obj ms => ((JSON.member ms "message").map expectedMessageShape).getD false
  | _ => false

/-- The expected response in the words of the specification:
`{"choices":[{"message":{"role":<string>,"content":<string>}}]}`, an object
whose `choices` is an array of choices of the expected shape. -/
def expectedShape : JSON → Bool
  | .obj ms =>
    match JSON.member ms "choices" with
    | some (.arr items) => items.all expectedChoiceShape
    | _ => false
  | _ => false

/-- A value of the wrong JSON type for a `string` field. -/
def wrongString : JSON → Bool
  | .str _ => false
  | .null => false
  | _ => true

/-- A value that cannot be stored into a `Message`: not an object or null, or
an object that gives `role` or `content` a value of the wrong type. -/
def wrongMessage : JSON → Bool
  | .obj ms =>
    ms.any (fun kv => (keyMatches kv.1 "role" || keyMatches kv.1 "content") && wrongString kv.2)
  | .null => false
  | _ => true

/-- A value that cannot be stored into an element of `Choices`. -/
def wrongChoice : JSON → Bool
  | .obj ms => ms.any (fun kv => keyMatches kv.1 "message" && wrongMessage kv.2)
  | .null => false
  | _ => true

/-- A value that cannot be stored into the field `Choices`. -/
def wrongChoices : JSON → Bool
  | .arr items => items.any wrongChoice
  | .null => false
  | _ => true

/-- A value that cannot be stored into an `APIResponse`: some value the
decoder stores has the wrong JSON type. -/
def wrongResponse : JSON → Bool
  | .obj ms => ms.any (fun kv => keyMatches kv.1 "choices" && wrongChoices kv.2)
  | .null => false
  | _ => true

/-- Whether a value is the JSON `null`. -/
def JSON.isNull : JSON → Bool
  | .null => true
  | _ => false

/-- A value that stores nothing into a `Message`: `null`, or an object in
which every member named `role` or `content` is `null`. -/
def noMessageData : JSON → Bool
  | .null => true
  | .obj ms =>
    ms.all (fun kv =>
      !(keyMatches kv.1 "role" || keyMatches kv.1 "content") || JSON.isNull kv.2)
  | _ => false

/-- A value that stores nothing into an element of `Choices`: `null`, or an
object in which every member named `message` stores nothing. -/
def noChoiceData : JSON → Bool
  | .null => true
  | .obj ms => ms.all (fun kv => !keyMatches kv.1 "message" || noMessageData kv.2)
  | _ => false

/-- The JSON value a `Message` stands for: an object with `role` and then
`content`. -/
def messageJSON (m : Message) : JSON :=
  .obj [("role", .str m.Role), ("content", .str m.Content)]

/-- The JSON value an `APIRequest` stands for: an object with `model` and then
`messages`, the latter `null` for the nil slice and otherwise the array of the
messages in order. -/
def requestJSON (r : APIRequest) : JSON :=
  .obj [("model", .str r.Model),
    ("messages",
      match r.Messages with
      | .nil => .null
      | .of ms => .arr (ms.map messageJSON))]

/-! ## The tokens of a serialized request -/

/-- The unit the scanner builds from the text `encodeRune` writes for a rune. -/
def unitOf (c : Char) : StrUnit :=
  if c == '"' || c == '\\' || c == '\x08' || c == '\x0c' || c == '\n' || c == '\r' || c == '\t'
  then .chr c
  else if c.toNat < 0x20 || c == '<' || c == '>' || c == '&' then .esc c.toNat
  else if c == Char.ofNat 0x2028 || c == Char.ofNat 0x2029 then .esc c.toNat
  else .chr c

/-- The tokens of the text of a message. -/
def messageTokens (m : Message) : List Token :=
  [.lbrace, .str "role", .colon, .str m.Role, .comma, .str "content", .colon,
    .str m.Content, .rbrace]

/-- The tokens of the text of a slice of messages. -/
def messagesTokens : Slice Message → List Token
  | .nil => [.tNull]
  | .of [] => [.lbrack, .rbrack]
  | .of (m :: ms) =>
    .lbrack :: (messageTokens m ++ ms.flatMap (fun x => .comma :: messageTokens x))
      ++ [.rbrack]

/-- The tokens of the text of a request. -/
def requestTokens (r : APIRequest) : List Token :=
  [.lbrace, .str "model", .colon, .str r.Model, .comma, .str "messages", .colon]
    ++ messagesTokens r.Messages ++ [.rbrace]

/-! ## Worlds for the examples -/

/-- A wording for the errors of `encoding/json`, for the examples. -/
def exampleErrorText : JSONError → String
  | .SyntaxError => "invalid character"
  | .UnmarshalTypeError => "json: cannot unmarshal"

/-- A world in which the key is set, `.env` loads and is empty, the user
types one line, and the peer answers every request with the given status and
body. -/
def answering (status : Nat) (body : String) : World where
  environ := [("API_KEY", "sk-or-test")]
  dotenv := some []
  stdin := "What is 2+2?\n"
  Do := fun _ => .ok ⟨status, body, none⟩
  jsonErrorText := exampleErrorText
  Render := fun content _ _ => content
  logStamp := "2024/05/01 12:00:00 "

/-- A world like `answering`, but without a file `.env`. -/
def withoutEnvFile : World := { answering 200 "" with dotenv := none }

/-- A world like `answering`, but with no `API_KEY` anywhere. -/
def withoutKey : World := { answering 200 "" with environ := [] }

/-- A world like `answering`, but the peer cannot be reached. -/
def unreachable : World :=
  { answering 200 "" with Do := fun _ => .error "dial tcp: connection refused" }

/-- The body of the specification's successful example. -/
def helloBody : String :=
  "\x7b\"choices\":[\x7b\"message\":\x7b\"role\":\"assistant\",\"content\":\"hello\"\x7d\x7d]\x7d"

/-- The body of the specification's empty example. -/
def emptyChoicesBody : String := "\x7b\"choices\":[]\x7d"

/-- The same answers with every status code rewritten by `g`. -/
def World.mapStatus (w : World) (g : Nat → Nat) : World :=
  { w with Do := fun q => (w.Do q).map (fun r => { r with StatusCode := g r.StatusCode }) }

/-! ## Lemmas -/

theorem no_choices_ne_unmarshal (d : String) :
    "no choices in API response" ≠ "error unmarshaling response: " ++ d := by
  intro h
  have h2 := congrArg String.data h
  simp [String.data_append] at h2

theorem parse_of_unmarshal_ok (w : World) (body : String) (r : APIResponse)
    (hr : Unmarshal body = .ok r) :
    FetchLLM.parse w body =
      match r.Choices with
      | [] => .error "no choices in API response"
      | c :: _ => .ok c.Message := by
  unfold FetchLLM.parse
  rw [hr]
  cases hc : r.Choices with
  | nil => simp [hc]
  | cons c cs => simp [hc]

theorem parse_of_unmarshal_error (w : World) (body : String) (e : JSONError)
    (hr : Unmarshal body = .error e) :
    FetchLLM.parse w body = .error ("error unmarshaling response: " ++ w.jsonErrorText e) := by
  unfold FetchLLM.parse
  rw [hr]

theorem FetchLLM_of_body (w : World) (p body : String)
    (h : (Request w ⟨MODEL, GenerateLLMPrompt p⟩).out = .ret (.ok body)) :
    (FetchLLM w p).out = .ret (FetchLLM.parse w body) := by
  simp only [FetchLLM]
  split <;> simp_all

theorem decodeString_of_wrong (cur : String) (j : JSON) (h : wrongString j = true) :
    decodeString cur j = .error .UnmarshalTypeError := by
  cases j <;> simp_all [wrongString, decodeString]

theorem decodeString_of_not_wrong (cur : String) (j : JSON) (h : wrongString j = false) :
    ∃ s, decodeString cur j = .ok s := by
  cases j <;> simp_all [wrongString, decodeString]

theorem foldlM_of_wrong {α β : Type} (f : α → β → Except JSONError α) (p : β → Bool)
    (hw : ∀ a b, p b = true → f a b = .error .UnmarshalTypeError)
    (hok : ∀ a b, p b = false → ∃ x, f a b = .ok x) (l : List β) :
    ∀ a, (l.any p = true → l.foldlM f a = .error .UnmarshalTypeError)
      ∧ (l.any p = false → ∃ x, l.foldlM f a = .ok x) := by
  induction l with
  | nil => intro a; simp [pure, Except.pure]
  | cons b bs ih =>
    intro a
    cases hb : p b with
    | true =>
      simp [List.foldlM_cons, hb, hw a b hb, bind, Except.bind]
    | false =>
      obtain ⟨x, hx⟩ := hok a b hb
      simp only [List.foldlM_cons, List.any_cons, hb, Bool.false_or, hx, bind, Except.bind]
      exact ih x

theorem foldlM_of_no_match {α β : Type} (f : α → β → Except JSONError α) (p : β → Bool)
    (hskip : ∀ a b, p b = false → f a b = .ok a) (l : List β) (hl : l.any p = false) :
    ∀ a, l.foldlM f a = .ok a := by
  induction l with
  | nil => intro a; rfl
  | cons b bs ih =>
    intro a
    simp only [List.any_cons, Bool.or_eq_false_iff] at hl
    simp only [List.foldlM_cons, hskip a b hl.1, bind, Except.bind]
    exact ih hl.2 a

theorem decodeMessage_spec (cur : Message) (j : JSON) :
    (wrongMessage j = true → decodeMessage cur j = .error .UnmarshalTypeError)
      ∧ (wrongMessage j = false → ∃ m, decodeMessage cur j = .ok m) := by
  cases j with
  | obj ms =>
    simp only [wrongMessage, decodeMessage]
    apply foldlM_of_wrong
    · intro a b hb
      simp only [Bool.and_eq_true, Bool.or_eq_true] at hb
      unfold decodeMessageField
      rcases hb with ⟨h1 | h1, h2⟩
      · simp [h1, decodeString_of_wrong _ _ h2, Except.map]
      · by_cases hr : keyMatches b.1 "role" = true
        · simp [hr, decodeString_of_wrong _ _ h2, Except.map]
        · simp [hr, h1, decodeString_of_wrong _ _ h2, Except.map]
    · intro a b hb
      unfold decodeMessageField
      by_cases hr : keyMatches b.1 "role" = true
      · have hs : wrongString b.2 = false := by simpa [hr] using hb
        obtain ⟨s, hs⟩ := decodeString_of_not_wrong a.Role b.2 hs
        simp [hr, hs, Except.map]
      · by_cases hc : keyMatches b.1 "content" = true
        · have hs : wrongString b.2 = false := by simpa [hr, hc] using hb
          obtain ⟨s, hs⟩ := decodeString_of_not_wrong a.Content b.2 hs
          simp [hr, hc, hs, Except.map]
        · simp [hr, hc]
  | null => simp [wrongMessage, decodeMessage]
  | bool b => simp [wrongMessage, decodeMessage]
  | num => simp [wrongMessage, decodeMessage]
  | str s => simp [wrongMessage, decodeMessage]
  | arr items => simp [wrongMessage, decodeMessage]

theorem decodeChoice_spec (cur : Choice) (j : JSON) :
    (wrongChoice j = true → decodeChoice cur j = .error .UnmarshalTypeError)
      ∧ (wrongChoice j = false → ∃ c, decodeChoice cur j = .ok c) := by
  cases j with
  | obj ms =>
    simp only [wrongChoice, decodeChoice]
    apply foldlM_of_wrong
    · intro a b hb
      simp only [Bool.and_eq_true] at hb
      unfold decodeChoiceField
      simp [hb.1, (decodeMessage_spec a.Message b.2).1 hb.2, Except.map]
    · intro a b hb
      unfold decodeChoiceField
      by_cases hr : keyMatches b.1 "message" = true
      · have hs : wrongMessage b.2 = false := by simpa [hr] using hb
        obtain ⟨m, hm⟩ := (decodeMessage_spec a.Message b.2).2 hs
        simp [hr, hm, Except.map]
      · simp [hr]
  | null => simp [wrongChoice, decodeChoice]
  | bool b => simp [wrongChoice, decodeChoice]
  | num => simp [wrongChoice, decodeChoice]
  | str s => simp [wrongChoice, decodeChoice]
  | arr items => simp [wrongChoice, decodeChoice]

theorem decodeElems_spec (items : List JSON) :
    ∀ cur, (items.any wrongChoice = true → decodeElems cur items = .error .UnmarshalTypeError)
      ∧ (items.any wrongChoice = false → ∃ cs, decodeElems cur items = .ok cs) := by
  induction items with
  | nil => intro cur; simp [decodeElems]
  | cons j js ih =>
    intro cur
    cases hj : wrongChoice j with
    | true =>
      have hc := (decodeChoice_spec (cur.headD Choice.zero) j).1 hj
      simp only [decodeElems, hc]
      simp [hj]
    | false =>
      obtain ⟨c, hc⟩ := (decodeChoice_spec (cur.headD Choice.zero) j).2 hj
      simp only [decodeElems, List.any_cons, hj, Bool.false_or, hc]
      constructor
      · intro h
        simp [(ih cur.tail).1 h, Except.map]
      · intro h
        obtain ⟨cs, hcs⟩ := (ih cur.tail).2 h
        simp [hcs, Except.map]

theorem decodeChoices_spec (cur : List Choice) (j : JSON) :
    (wrongChoices j = true → decodeChoices cur j = .error .UnmarshalTypeError)
      ∧ (wrongChoices j = false → ∃ cs, decodeChoices cur j = .ok cs) := by
  cases j with
  | arr items => simpa only [wrongChoices, decodeChoices] using decodeElems_spec items cur
  | null => simp [wrongChoices, decodeChoices]
  | bool b => simp [wrongChoices, decodeChoices]
  | num => simp [wrongChoices, decodeChoices]
  | str s => simp [wrongChoices, decodeChoices]
  | obj ms => simp [wrongChoices, decodeChoices]

theorem decodeAPIResponse_spec (cur : APIResponse) (j : JSON) :
    (wrongResponse j = true → decodeAPIResponse cur j = .error .UnmarshalTypeError)
      ∧ (wrongResponse j = false → ∃ r, decodeAPIResponse cur j = .ok r) := by
  cases j with
  | obj ms =>
    simp only [wrongResponse, decodeAPIResponse]
    apply foldlM_of_wrong
    · intro a b hb
      simp only [Bool.and_eq_true] at hb
      unfold decodeResponseField
      simp [hb.1, (decodeChoices_spec a.Choices b.2).1 hb.2, Except.map]
    · intro a b hb
      unfold decodeResponseField
      by_cases hr : keyMatches b.1 "choices" = true
      · have hs : wrongChoices b.2 = false := by simpa [hr] using hb
        obtain ⟨m, hm⟩ := (decodeChoices_spec a.Choices b.2).2 hs
        simp [hr, hm, Except.map]
      · simp [hr]
  | null => simp [wrongResponse, decodeAPIResponse]
  | bool b => simp [wrongResponse, decodeAPIResponse]
  | num => simp [wrongResponse, decodeAPIResponse]
  | str s => simp [wrongResponse, decodeAPIResponse]
  | arr items => simp [wrongResponse, decodeAPIResponse]

theorem LookupEnv_Setenv_of_ne (env : Environ) (key value name : String) (h : key ≠ name) :
    LookupEnv (Setenv env key value) name = LookupEnv env name := by
  unfold Setenv
  split
  · rfl
  · have hb : (key == name) = false := by simpa using h
    simp only [LookupEnv, List.find?_cons, hb, List.find?_filter]
    congr 2
    funext kv
    by_cases hk : kv.1 = name
    · have hne : kv.1 ≠ key := fun hh => h (hh ▸ hk)
      simp [hk, hne]
      exact fun hh => h (hh ▸ rfl)
    · simp [hk]

theorem godotenvLoad_keeps (kvs : List (String × String)) (env : Environ) (name k : String)
    (hk : LookupEnv env name = some k) :
    ∀ cur, LookupEnv cur name = some k →
      LookupEnv (kvs.foldl
        (fun cur kv => if (LookupEnv env kv.1).isSome then cur else Setenv cur kv.1 kv.2) cur)
        name = some k := by
  induction kvs with
  | nil => intro cur hc; simpa using hc
  | cons kv kvs ih =>
    intro cur hc
    simp only [List.foldl_cons]
    apply ih
    split
    · exact hc
    · rename_i hn
      have hne : kv.1 ≠ name := by
        intro hh
        rw [hh, hk] at hn
        simp at hn
      rw [LookupEnv_Setenv_of_ne cur kv.1 kv.2 name hne]
      exact hc

theorem GetAPIKey_of_loaded (w : World) (env : Environ) (C : String)
    (hl : godotenvLoad w.dotenv w.environ = .ok env) (hC : Getenv env "API_KEY" = C)
    (hne : C ≠ "") : GetAPIKey w = .ret C := by
  unfold GetAPIKey
  rw [hl]
  simp [hC, hne]

theorem Request_of_key (w : World) (req : APIRequest) (key : String)
    (hk : GetAPIKey w = .ret key) :
    Request w req =
      (let q : HTTPRequest := ⟨"POST", URL,
          [("Authorization", "Bearer " ++ key), ("Content-Type", "application/json")],
          "\x7b\"model\":" ++ encodeString req.Model ++ ",\"messages\":"
            ++ marshalMessages req.Messages ++ "\x7d"⟩
       match w.Do q with
       | .error err => ⟨[q], .ret (.error ("error making request: " ++ err))⟩
       | .ok resp =>
         match ReadAll resp with
         | .error err => ⟨[q], .ret (.error ("error reading response body: " ++ err))⟩
         | .ok body => ⟨[q], .ret (.ok body)⟩) := by
  unfold Request
  rw [hk]
  simp only [Marshal, NewRequest, HTTPRequest.SetHeader]
  rfl

theorem Request_mapStatus (w : World) (g : Nat → Nat) (req : APIRequest) :
    Request (w.mapStatus g) req = Request w req := by
  cases hk : GetAPIKey w with
  | fatal msg =>
    have hk2 : GetAPIKey (w.mapStatus g) = .fatal msg := hk
    unfold Request
    rw [hk, hk2]
  | ret key =>
    have hk2 : GetAPIKey (w.mapStatus g) = .ret key := hk
    rw [Request_of_key w req key hk, Request_of_key (w.mapStatus g) req key hk2]
    simp only [World.mapStatus]
    cases hd : w.Do _ with
    | error err => simp [Except.map]
    | ok resp =>
      cases hr : resp.ReadErr with
      | none => simp [Except.map, ReadAll, hr]
      | some e => simp [Except.map, ReadAll, hr]

theorem FetchLLM_mapStatus (w : World) (g : Nat → Nat) (p : String) :
    FetchLLM (w.mapStatus g) p = FetchLLM w p := by
  have hparse : ∀ body, FetchLLM.parse (w.mapStatus g) body = FetchLLM.parse w body :=
    fun _ => rfl
  simp only [FetchLLM, Request_mapStatus, hparse]

/-! ## Lemmas on serializing and reading back a request -/

theorem hexVal_hexDigit (d : Nat) (h : d < 16) : hexVal (hexDigit d) = some d := by
  interval_cases d <;> rfl

theorem lexStep_strU_lt (acc : List StrUnit) (toks : List Token) (k n d : Nat) (c : Char)
    (hk : k < 3) (hc : hexVal c = some d) :
    lexStep (Lex.strU acc k n, toks) c = some (Lex.strU acc (k + 1) (n * 16 + d), toks) := by
  have hk3 : (k == 3) = false := by
    simp only [beq_eq_false_iff_ne]; omega
  simp only [lexStep, hc, hk3]
  rfl

theorem lexStep_strU_last (acc : List StrUnit) (toks : List Token) (n d : Nat) (c : Char)
    (hc : hexVal c = some d) :
    lexStep (Lex.strU acc 3 n, toks) c = some (Lex.str (.esc (n * 16 + d) :: acc), toks) := by
  simp only [lexStep, hc]
  rfl

theorem lexStep_u4 (acc : List StrUnit) (toks : List Token) (a b c d : Char) (x y z t : Nat)
    (ha : hexVal a = some x) (hb : hexVal b = some y) (hc : hexVal c = some z)
    (hd : hexVal d = some t) :
    (['\\', 'u', a, b, c, d]).foldlM lexStep (Lex.str acc, toks)
      = some (Lex.str (.esc ((((0 * 16 + x) * 16 + y) * 16 + z) * 16 + t) :: acc), toks) := by
  have s1 : lexStep (Lex.str acc, toks) '\\' = some (Lex.strEsc acc, toks) := rfl
  have s2 : lexStep (Lex.strEsc acc, toks) 'u' = some (Lex.strU acc 0 0, toks) := rfl
  simp only [List.foldlM_cons, List.foldlM_nil, s1, s2, Option.bind_eq_bind, Option.some_bind,
    lexStep_strU_lt acc toks 0 _ x a (by omega) ha,
    lexStep_strU_lt acc toks 1 _ y b (by omega) hb,
    lexStep_strU_lt acc toks 2 _ z c (by omega) hc,
    lexStep_strU_last acc toks _ t d hd]
  rfl

theorem lexStep_u00 (acc : List StrUnit) (toks : List Token) (n : Nat) (h : n < 256) :
    (['\\', 'u', '0', '0', hexDigit (n / 16), hexDigit (n % 16)]).foldlM lexStep
        (Lex.str acc, toks) = some (Lex.str (.esc n :: acc), toks) := by
  have h1 : hexVal (hexDigit (n / 16)) = some (n / 16) := hexVal_hexDigit _ (by omega)
  have h2 : hexVal (hexDigit (n % 16)) = some (n % 16) := hexVal_hexDigit _ (by omega)
  have h0 : hexVal '0' = some 0 := rfl
  rw [lexStep_u4 acc toks _ _ _ _ 0 0 _ _ h0 h0 h1 h2]
  have h4 : (((0 * 16 + 0) * 16 + 0) * 16 + n / 16) * 16 + n % 16 = n := by omega
  rw [h4]

theorem lex_encodeRune (c : Char) (acc : List StrUnit) (toks : List Token) :
    (encodeRune c).foldlM lexStep (Lex.str acc, toks)
      = some (Lex.str (unitOf c :: acc), toks) := by
  by_cases h1 : c = '"'
  · subst h1; rfl
  by_cases h2 : c = '\\'
  · subst h2; rfl
  by_cases h3 : c = '\x08'
  · subst h3; rfl
  by_cases h4 : c = '\x0c'
  · subst h4; rfl
  by_cases h5 : c = '\n'
  · subst h5; rfl
  by_cases h6 : c = '\r'
  · subst h6; rfl
  by_cases h7 : c = '\t'
  · subst h7; rfl
  have e1 : (c == '"') = false := by simpa using h1
  have e2 : (c == '\\') = false := by simpa using h2
  have e3 : (c == '\x08') = false := by simpa using h3
  have e4 : (c == '\x0c') = false := by simpa using h4
  have e5 : (c == '\n') = false := by simpa using h5
  have e6 : (c == '\r') = false := by simpa using h6
  have e7 : (c == '\t') = false := by simpa using h7
  by_cases h8 : (c.toNat < 0x20 || c == '<' || c == '>' || c == '&') = true
  · have hn : c.toNat < 256 := by
      simp only [Bool.or_eq_true, decide_eq_true_eq, beq_iff_eq] at h8
      rcases h8 with ((h | h) | h) | h
      · omega
      · subst h; decide
      · subst h; decide
      · subst h; decide
    simp only [encodeRune, unitOf, e1, e2, e3, e4, e5, e6, e7, h8, Bool.or_self, if_true,
      Bool.false_eq_true, if_false]
    exact lexStep_u00 acc toks c.toNat hn
  · by_cases h9 : c = Char.ofNat 0x2028
    · subst h9; rfl
    by_cases h10 : c = Char.ofNat 0x2029
    · subst h10; rfl
    have e9 : (c == Char.ofNat 0x2028) = false := by simpa using h9
    have e10 : (c == Char.ofNat 0x2029) = false := by simpa using h10
    have hlt : ¬ c.toNat < 0x20 := by
      intro hh
      apply h8
      simp [hh]
    simp only [encodeRune, unitOf, e1, e2, e3, e4, e5, e6, e7, h8, e9, e10, Bool.or_self,
      Bool.false_eq_true, if_false, List.foldlM_cons, List.foldlM_nil, lexStep,
      Option.bind_eq_bind]
    simp [hlt]

theorem lex_runes (toks : List Token) (l : List Char) :
    ∀ acc, (l.flatMap encodeRune).foldlM lexStep (Lex.str acc, toks)
      = some (Lex.str ((l.map unitOf).reverse ++ acc), toks) := by
  induction l with
  | nil => intro acc; rfl
  | cons c cs ih =>
    intro acc
    simp only [List.flatMap_cons, List.foldlM_append, lex_encodeRune, Option.bind_eq_bind,
      Option.some_bind, ih, List.map_cons, List.reverse_cons, List.append_assoc,
      List.singleton_append]

theorem unquote_esc_toNat (c : Char) (us : List StrUnit) :
    unquote none (.esc c.toNat :: us) = c :: unquote none us := by
  have hv : c.toNat < 0xd800 ∨ (0xdfff < c.toNat ∧ c.toNat < 0x110000) := c.valid
  have h1 : isHighSurrogate c.toNat = false := by
    simp only [isHighSurrogate, Bool.and_eq_false_iff, decide_eq_false_iff_not]
    omega
  have h2 : isLowSurrogate c.toNat = false := by
    simp only [isLowSurrogate, Bool.and_eq_false_iff, decide_eq_false_iff_not]
    omega
  simp only [unquote, h1, h2, Bool.false_eq_true, if_false, Char.ofNat_toNat]

theorem unquote_units (l : List Char) : unquote none (l.map unitOf) = l := by
  induction l with
  | nil => rfl
  | cons c cs ih =>
    simp only [List.map_cons]
    have h : unitOf c = .chr c ∨ unitOf c = .esc c.toNat := by
      unfold unitOf
      split
      · exact Or.inl rfl
      · split
        · exact Or.inr rfl
        · split
          · exact Or.inr rfl
          · exact Or.inl rfl
    rcases h with h | h
    · rw [h]
      simp only [unquote, ih]
    · rw [h, unquote_esc_toNat, ih]

theorem lex_encodeString (s : String) (toks : List Token) :
    (encodeString s).toList.foldlM lexStep (Lex.start, toks)
      = some (Lex.start, Token.str s :: toks) := by
  have h0 : lexStep (Lex.start, toks) '"' = some (Lex.str [], toks) := rfl
  have h1 : ∀ acc, lexStep (Lex.str acc, toks) '"'
      = some (Lex.start, Token.str (String.mk (unquote none acc.reverse)) :: toks) :=
    fun _ => rfl
  simp only [encodeString, String.toList, List.foldlM_cons, List.foldlM_append, h0,
    Option.bind_eq_bind, Option.some_bind, lex_runes, List.foldlM_nil, h1, List.append_nil,
    List.reverse_reverse, unquote_units]
  rfl

theorem lex_open_role (t : List Token) (rest : List Char) :
    ('{' :: '"' :: 'r' :: 'o' :: 'l' :: 'e' :: '"' :: ':' :: rest).foldlM lexStep (Lex.start, t)
      = rest.foldlM lexStep (Lex.start, .colon :: .str "role" :: .lbrace :: t) := rfl

theorem lex_content_key (t : List Token) (rest : List Char) :
    (',' :: '"' :: 'c' :: 'o' :: 'n' :: 't' :: 'e' :: 'n' :: 't' :: '"' :: ':' :: rest).foldlM
        lexStep (Lex.start, t)
      = rest.foldlM lexStep (Lex.start, .colon :: .str "content" :: .comma :: t) := rfl

theorem lex_open_model (t : List Token) (rest : List Char) :
    ('{' :: '"' :: 'm' :: 'o' :: 'd' :: 'e' :: 'l' :: '"' :: ':' :: rest).foldlM lexStep
        (Lex.start, t)
      = rest.foldlM lexStep (Lex.start, .colon :: .str "model" :: .lbrace :: t) := rfl

theorem lex_messages_key (t : List Token) (rest : List Char) :
    (',' :: '"' :: 'm' :: 'e' :: 's' :: 's' :: 'a' :: 'g' :: 'e' :: 's' :: '"' :: ':'
        :: rest).foldlM lexStep (Lex.start, t)
      = rest.foldlM lexStep (Lex.start, .colon :: .str "messages" :: .comma :: t) := rfl

theorem lex_rbrace (t : List Token) (rest : List Char) :
    ('}' :: rest).foldlM lexStep (Lex.start, t)
      = rest.foldlM lexStep (Lex.start, .rbrace :: t) := rfl

theorem lex_lbrack (t : List Token) (rest : List Char) :
    ('[' :: rest).foldlM lexStep (Lex.start, t)
      = rest.foldlM lexStep (Lex.start, .lbrack :: t) := rfl

theorem lex_rbrack (t : List Token) (rest : List Char) :
    (']' :: rest).foldlM lexStep (Lex.start, t)
      = rest.foldlM lexStep (Lex.start, .rbrack :: t) := rfl

theorem lex_comma (t : List Token) (rest : List Char) :
    (',' :: rest).foldlM lexStep (Lex.start, t)
      = rest.foldlM lexStep (Lex.start, .comma :: t) := rfl

theorem lex_encodeString_data (s : String) (toks : List Token) :
    (encodeString s).data.foldlM lexStep (Lex.start, toks)
      = some (Lex.start, Token.str s :: toks) := lex_encodeString s toks

theorem lex_message (m : Message) (toks : List Token) :
    (marshalMessage m).data.foldlM lexStep (Lex.start, toks)
      = some (Lex.start, (messageTokens m).reverse ++ toks) := by
  simp only [marshalMessage, String.data_append, List.foldlM_append, List.cons_append,
    List.nil_append, lex_open_role, lex_content_key, lex_rbrace, lex_encodeString_data,
    Option.bind_eq_bind, Option.some_bind, List.foldlM_nil, Option.pure_def]
  rfl

theorem intercalate_go_data (as : List String) :
    ∀ acc : String, (String.intercalate.go acc "," as).data
      = acc.data ++ as.flatMap (fun x => ',' :: x.data) := by
  induction as with
  | nil => intro acc; simp [String.intercalate.go]
  | cons a as ih =>
    intro acc
    simp only [String.intercalate.go, ih, String.data_append, List.flatMap_cons,
      List.append_assoc]
    rfl

theorem lex_more_messages (ms : List Message) :
    ∀ toks, ((ms.map marshalMessage).flatMap (fun x => ',' :: x.data)).foldlM lexStep
        (Lex.start, toks)
      = some (Lex.start, (ms.flatMap (fun x => Token.comma :: messageTokens x)).reverse ++ toks) := by
  induction ms with
  | nil => intro toks; rfl
  | cons m ms ih =>
    intro toks
    simp only [List.map_cons, List.flatMap_cons, List.cons_append, lex_comma,
      List.foldlM_append, lex_message, Option.bind_eq_bind, Option.some_bind, ih,
      List.reverse_append, List.reverse_cons, List.append_assoc, List.nil_append]

theorem lex_messages (ms : Slice Message) (toks : List Token) :
    (marshalMessages ms).data.foldlM lexStep (Lex.start, toks)
      = some (Lex.start, (messagesTokens ms).reverse ++ toks) := by
  cases ms with
  | nil => rfl
  | of l =>
    cases l with
    | nil => rfl
    | cons m ms =>
      simp only [marshalMessages, String.data_append, List.map_cons,
        String.intercalate, intercalate_go_data, List.cons_append, List.nil_append, lex_lbrack,
        List.foldlM_append, lex_message, lex_more_messages, Option.bind_eq_bind,
        Option.some_bind, lex_rbrack, List.foldlM_nil, Option.pure_def, messagesTokens,
        List.reverse_append, List.reverse_cons, List.append_assoc, List.reverse_nil]

theorem tokenize_request (r : APIRequest) :
    tokenize ("\x7b\"model\":" ++ encodeString r.Model ++ ",\"messages\":"
      ++ marshalMessages r.Messages ++ "\x7d").toList = some (requestTokens r) := by
  simp only [tokenize, String.toList, String.data_append, List.cons_append, List.nil_append,
    lex_open_model, List.foldlM_append, lex_encodeString_data, Option.bind_eq_bind,
    Option.some_bind, lex_messages_key, lex_messages, lex_rbrace, List.foldlM_nil,
    Option.pure_def]
  simp only [lexEnd, requestTokens, List.reverse_cons, List.reverse_append,
    List.reverse_reverse, List.reverse_nil, List.append_assoc, List.cons_append,
    List.nil_append, pure]

theorem parse_message (m : Message) (items : List JSON) (mem : List (String × JSON))
    (key : String) (first : Bool) (rest : List Token) :
    (messageTokens m ++ rest).foldlM parseStep
        (Frame.arr items :: [Frame.obj mem key], Mode.value first)
      = rest.foldlM parseStep
          (Frame.arr (messageJSON m :: items) :: [Frame.obj mem key], Mode.after) := rfl

theorem parse_more_messages (mem : List (String × JSON)) (key : String) (rest : List Token)
    (ms : List Message) :
    ∀ items, (ms.flatMap (fun x => Token.comma :: messageTokens x) ++ rest).foldlM parseStep
        (Frame.arr items :: [Frame.obj mem key], Mode.after)
      = rest.foldlM parseStep
          (Frame.arr ((ms.map messageJSON).reverse ++ items) :: [Frame.obj mem key],
            Mode.after) := by
  induction ms with
  | nil => intro items; rfl
  | cons m ms ih =>
    intro items
    have hc : ∀ l : List Token, (Token.comma :: l).foldlM parseStep
        (Frame.arr items :: [Frame.obj mem key], Mode.after)
        = l.foldlM parseStep (Frame.arr items :: [Frame.obj mem key], Mode.value false) :=
      fun _ => rfl
    simp only [List.flatMap_cons, List.cons_append, List.append_assoc, hc, parse_message, ih,
      List.map_cons, List.reverse_cons, List.nil_append]

theorem parseTokens_request (r : APIRequest) :
    parseTokens (requestTokens r) = some (requestJSON r) := by
  obtain ⟨model, msgs⟩ := r
  cases msgs with
  | nil => rfl
  | of l =>
    cases l with
    | nil => rfl
    | cons m ms =>
      have hh : ∀ rest : List Token,
          (Token.lbrace :: .str "model" :: .colon :: .str model :: .comma :: .str "messages"
            :: .colon :: .lbrack :: rest).foldlM parseStep ([], Mode.value false)
          = rest.foldlM parseStep
              (Frame.arr [] :: [Frame.obj [("model", .str model)] "messages"],
                Mode.value true) := fun _ => rfl
      have ht : ∀ items : List JSON,
          ([Token.rbrack, Token.rbrace]).foldlM parseStep
            (Frame.arr items :: [Frame.obj [("model", .str model)] "messages"], Mode.after)
          = some ([], Mode.done
              (.obj [("model", .str model), ("messages", .arr items.reverse)])) :=
        fun _ => rfl
      simp only [parseTokens, requestTokens, messagesTokens, List.cons_append, List.nil_append,
        List.append_assoc, hh, parse_message, parse_more_messages, ht, requestJSON,
        List.reverse_append, List.reverse_reverse, List.reverse_cons, List.reverse_nil,
        List.map_cons]

theorem parseJSON_Marshal (r : APIRequest) :
    parseJSON ("\x7b\"model\":" ++ encodeString r.Model ++ ",\"messages\":"
      ++ marshalMessages r.Messages ++ "\x7d") = some (requestJSON r) := by
  unfold parseJSON
  rw [tokenize_request, Option.some_bind, parseTokens_request]

theorem foldlM_of_all_skip {α β : Type} (f : α → β → Except JSONError α) (p : β → Bool)
    (hskip : ∀ a b, p b = true → f a b = .ok a) (l : List β) (hl : l.all p = true) :
    ∀ a, l.foldlM f a = .ok a := by
  induction l with
  | nil => intro a; rfl
  | cons b bs ih =>
    intro a
    simp only [List.all_cons, Bool.and_eq_true] at hl
    simp only [List.foldlM_cons, hskip a b hl.1, bind, Except.bind]
    exact ih hl.2 a

theorem decodeMessage_of_noData (cur : Message) (j : JSON) (h : noMessageData j = true) :
    decodeMessage cur j = .ok cur := by
  cases j with
  | obj ms =>
    simp only [noMessageData] at h
    simp only [decodeMessage]
    apply foldlM_of_all_skip decodeMessageField _ _ ms h
    intro a b hb
    unfold decodeMessageField
    by_cases hr : keyMatches b.1 "role" = true
    · have hn : JSON.isNull b.2 = true := by simpa [hr] using hb
      cases hv : b.2 <;> simp_all [JSON.isNull, decodeString, Except.map]
    · by_cases hc : keyMatches b.1 "content" = true
      · have hn : JSON.isNull b.2 = true := by simpa [hr, hc] using hb
        cases hv : b.2 <;> simp_all [JSON.isNull, decodeString, Except.map]
      · simp [hr, hc]
  | null => rfl
  | bool b => simp [noMessageData] at h
  | num => simp [noMessageData] at h
  | str s => simp [noMessageData] at h
  | arr items => simp [noMessageData] at h

theorem decodeChoice_of_noData (cur : Choice) (j : JSON) (h : noChoiceData j = true) :
    decodeChoice cur j = .ok cur := by
  cases j with
  | obj ms =>
    simp only [noChoiceData] at h
    simp only [decodeChoice]
    apply foldlM_of_all_skip decodeChoiceField _ _ ms h
    intro a b hb
    unfold decodeChoiceField
    by_cases hr : keyMatches b.1 "message" = true
    · have hn : noMessageData b.2 = true := by simpa [hr] using hb
      simp [hr, decodeMessage_of_noData a.Message b.2 hn, Except.map]
    · simp [hr]
  | null => rfl
  | bool b => simp [noChoiceData] at h
  | num => simp [noChoiceData] at h
  | str s => simp [noChoiceData] at h
  | arr items => simp [noChoiceData] at h

theorem Unmarshal_of_empty_first_choice (body : String) (pre post : List (String × JSON))
    (k : String) (e : JSON) (rest : List JSON)
    (hj : parseJSON body = some (.obj (pre ++ (k, .arr (e :: rest)) :: post)))
    (hk : keyMatches k "choices" = true)
    (hpre : pre.any (fun kv => keyMatches kv.1 "choices") = false)
    (hpost : post.any (fun kv => keyMatches kv.1 "choices") = false)
    (he : noChoiceData e = true) (hrest : rest.any wrongChoice = false) :
    ∃ cs, Unmarshal body = .ok ⟨Choice.zero :: cs⟩ := by
  have hskip : ∀ (a : APIResponse) (b : String × JSON),
      (fun kv : String × JSON => keyMatches kv.1 "choices") b = false →
      decodeResponseField a b = .ok a := by
    intro a b hb
    simp only at hb
    simp [decodeResponseField, hb]
  obtain ⟨cs, hcs⟩ := (decodeElems_spec rest ([] : List Choice).tail).2 hrest
  refine ⟨cs, ?_⟩
  have hfield : decodeResponseField APIResponse.zero (k, .arr (e :: rest))
      = .ok ⟨Choice.zero :: cs⟩ := by
    have hz : decodeChoice (([] : List Choice).headD Choice.zero) e = .ok Choice.zero :=
      decodeChoice_of_noData _ e he
    simp only [decodeResponseField, hk, if_true, decodeChoices, APIResponse.zero, decodeElems,
      hz, hcs, Except.map]
  unfold Unmarshal
  rw [hj]
  simp only [decodeAPIResponse, List.foldlM_append, List.foldlM_cons,
    foldlM_of_no_match decodeResponseField _ hskip pre hpre, bind, Except.bind, hfield,
    foldlM_of_no_match decodeResponseField _ hskip post hpost]

/-! ## C1: the request builder -/

/-- C1: for every prompt `P` (the empty one included), `GenerateLLMPrompt P` is
exactly the slice of the system instruction followed by the user message whose
content is `P` unchanged, and `FetchLLM P` is `Request` applied to the request with model
`MODEL` and those two messages, followed by the parsing step: it makes the
calls that `Request` makes and returns what parsing the returned body gives. -/
theorem C1_prompt_and_request (w : World) (P : String) :
    GenerateLLMPrompt P
        = .of [⟨"system", "You are a helpful assistant"⟩, ⟨"user", P⟩]
      ∧ (GenerateLLMPrompt (P ++ "\n")).elems.map Message.Content
        = ["You are a helpful assistant", P ++ "\n"]
      ∧ FetchLLM w P =
        (let r := Request w
            ⟨MODEL, .of [⟨"system", "You are a helpful assistant"⟩, ⟨"user", P⟩]⟩
         ⟨r.calls,
          match r.out with
          | .fatal msg => .fatal msg
          | .ret res => .ret (res.bind (FetchLLM.parse w))⟩) := by
  refine ⟨rfl, rfl, ?_⟩
  simp only [FetchLLM, GenerateLLMPrompt, Slice.append, Slice.elems, List.singleton_append]
  split <;> simp_all [Except.bind]

/-! ## C2, C3, C4: the parsing step -/

/-- C2: when the body decodes to a response with at least one choice, the
parsing step of `FetchLLM` succeeds with the message of the first choice,
whatever the other choices are, and so does `FetchLLM` when `Request` returned
that body. -/
theorem C2_first_choice (w : World) (body : String) (r : APIResponse) (c : Choice)
    (cs : List Choice) (hr : Unmarshal body = .ok r) (hc : r.Choices = c :: cs) :
    FetchLLM.parse w body = .ok c.Message
      ∧ ∀ p, (Request w ⟨MODEL, GenerateLLMPrompt p⟩).out = .ret (.ok body) →
          (FetchLLM w p).out = .ret (.ok c.Message) := by
  have h1 : FetchLLM.parse w body = .ok c.Message := by
    rw [parse_of_unmarshal_ok w body r hr, hc]
  exact ⟨h1, fun p hp => by rw [FetchLLM_of_body w p body hp, h1]⟩

/-- C2, at the body of the specification's example: the body decodes to one
choice and the parsing step returns the message with role `assistant` and
content `hello`. -/
theorem C2_first_choice_witness :
    Unmarshal helloBody = .ok ⟨[⟨⟨"assistant", "hello"⟩⟩]⟩
      ∧ FetchLLM.parse (answering 200 helloBody) helloBody = .ok ⟨"assistant", "hello"⟩ :=
  ⟨rfl, (C2_first_choice (answering 200 helloBody) helloBody
    ⟨[⟨⟨"assistant", "hello"⟩⟩]⟩ ⟨⟨"assistant", "hello"⟩⟩ [] rfl rfl).1⟩

/-- C3: when the body decodes to a response whose choices are empty, the
parsing step of `FetchLLM` fails with the error `no choices in API response`;
that error is not a parse error, whatever the detail of the parse error, and
no message is returned as a success. -/
theorem C3_empty_choices (w : World) (body : String) (r : APIResponse)
    (hr : Unmarshal body = .ok r) (hc : r.Choices = []) :
    FetchLLM.parse w body = .error "no choices in API response"
      ∧ (∀ d, FetchLLM.parse w body ≠ .error ("error unmarshaling response: " ++ d))
      ∧ (∀ m, FetchLLM.parse w body ≠ .ok m) := by
  have h1 : FetchLLM.parse w body = .error "no choices in API response" := by
    rw [parse_of_unmarshal_ok w body r hr, hc]
  refine ⟨h1, fun d hd => ?_, fun m hm => ?_⟩
  · rw [h1] at hd
    exact no_choices_ne_unmarshal d (Except.error.inj hd)
  · rw [h1] at hm
    cases hm

/-- C3, at the body `{"choices":[]}`: it decodes to a response without
choices and the parsing step fails with the empty-result error. -/
theorem C3_empty_choices_witness :
    Unmarshal emptyChoicesBody = .ok ⟨[]⟩
      ∧ FetchLLM.parse (answering 200 emptyChoicesBody) emptyChoicesBody
          = .error "no choices in API response" :=
  ⟨rfl, (C3_empty_choices (answering 200 emptyChoicesBody) emptyChoicesBody ⟨[]⟩ rfl rfl).1⟩

/-- C4: when the body is not valid JSON, the parsing step of `FetchLLM` fails
with `error unmarshaling response: ` followed by the text of the syntax error;
the result is not the empty-result error and no message is returned. -/
theorem C4_invalid_json (w : World) (body : String) (hv : Valid body = false) :
    FetchLLM.parse w body
        = .error ("error unmarshaling response: " ++ w.jsonErrorText .SyntaxError)
      ∧ FetchLLM.parse w body ≠ .error "no choices in API response"
      ∧ (∀ m, FetchLLM.parse w body ≠ .ok m) := by
  have hu : Unmarshal body = .error .SyntaxError := by
    unfold Valid at hv
    unfold Unmarshal
    cases hp : parseJSON body with
    | none => rfl
    | some j => simp [hp] at hv
  have h1 := parse_of_unmarshal_error w body _ hu
  refine ⟨h1, fun hd => ?_, fun m hm => ?_⟩
  · rw [h1] at hd
    exact no_choices_ne_unmarshal _ (Except.error.inj hd).symm
  · rw [h1] at hm
    cases hm

/-- C4, at the bytes `not json`: they are not valid JSON and the parsing step
fails with the parse error. -/
theorem C4_invalid_json_witness :
    Valid "not json" = false
      ∧ FetchLLM.parse (answering 200 "not json") "not json"
          = .error "error unmarshaling response: invalid character" :=
  ⟨rfl, (C4_invalid_json (answering 200 "not json") "not json" rfl).1⟩

/-! ## C5: bodies that are valid JSON of another shape -/

/-- C5 as stated fails: the literal `null` and the object with an empty first
choice are valid JSON and do not have the expected shape, yet the parsing step
answers the first with the empty-result error and the second with a success
that carries the zero message; so not every valid body of another shape gives
a parse error. -/
theorem C5_counterexample :
    parseJSON "null" = some .null
      ∧ expectedShape .null = false
      ∧ FetchLLM.parse (answering 200 "null") "null" = .error "no choices in API response"
      ∧ parseJSON "\x7b\"choices\":[\x7b\x7d]\x7d" = some (.obj [("choices", .arr [.obj []])])
      ∧ expectedShape (.obj [("choices", .arr [.obj []])]) = false
      ∧ FetchLLM.parse (answering 200 "") "\x7b\"choices\":[\x7b\x7d]\x7d" = .ok ⟨"", ""⟩
      ∧ ¬ (∀ (w : World) (body : String) (j : JSON), parseJSON body = some j →
            expectedShape j = false →
            ∃ d, FetchLLM.parse w body = .error ("error unmarshaling response: " ++ d)) := by
  refine ⟨rfl, rfl, rfl, rfl, rfl, rfl, fun h => ?_⟩
  obtain ⟨d, hd⟩ := h (answering 200 "null") "null" .null rfl rfl
  have h1 : FetchLLM.parse (answering 200 "null") "null"
      = .error "no choices in API response" := rfl
  rw [h1] at hd
  exact no_choices_ne_unmarshal d (Except.error.inj hd)

/-- C5, amended: for a body that is valid JSON, the parsing step of `FetchLLM`
fails with the parse error when a value the decoder stores has the wrong JSON
type (the top-level value, `choices`, an element of it, its `message`, or the
`role` or `content` of that); when no such value occurs it does not fail with
the parse error: it returns a message or fails with the empty-result error.
The literal `null` and an object without a member named `choices` give the
empty-result error.  When the body is an object with exactly one member named
`choices`, that member is an array with no element of a wrong type, and the
first element stores nothing (it is `null`, or an object whose members named
`message` are `null` or objects whose members named `role` or `content` are
`null`), the parsing step succeeds with the message whose role and content are
empty. -/
theorem C5_type_mismatch (w : World) (body : String) (j : JSON)
    (hj : parseJSON body = some j) :
    (wrongResponse j = true →
        FetchLLM.parse w body
          = .error ("error unmarshaling response: " ++ w.jsonErrorText .UnmarshalTypeError))
      ∧ (wrongResponse j = false →
          FetchLLM.parse w body = .error "no choices in API response"
            ∨ ∃ m, FetchLLM.parse w body = .ok m)
      ∧ (j = .null → FetchLLM.parse w body = .error "no choices in API response")
      ∧ (∀ ms, j = .obj ms → ms.any (fun kv => keyMatches kv.1 "choices") = false →
          FetchLLM.parse w body = .error "no choices in API response")
      ∧ (∀ pre k e rest post, j = .obj (pre ++ (k, .arr (e :: rest)) :: post) →
          keyMatches k "choices" = true →
          pre.any (fun kv => keyMatches kv.1 "choices") = false →
          post.any (fun kv => keyMatches kv.1 "choices") = false →
          noChoiceData e = true → rest.any wrongChoice = false →
          FetchLLM.parse w body = .ok ⟨"", ""⟩) := by
  have hu : Unmarshal body = decodeAPIResponse APIResponse.zero j := by
    unfold Unmarshal
    rw [hj]
  refine ⟨fun hw => ?_, fun hw => ?_, fun hn => ?_, fun ms hms hno => ?_,
    fun pre k e rest post hshape hk hpre hpost he hrest => ?_⟩
  · rw [(decodeAPIResponse_spec APIResponse.zero j).1 hw] at hu
    exact parse_of_unmarshal_error w body _ hu
  · obtain ⟨r, hr⟩ := (decodeAPIResponse_spec APIResponse.zero j).2 hw
    rw [hr] at hu
    rw [parse_of_unmarshal_ok w body r hu]
    cases r.Choices with
    | nil => exact Or.inl rfl
    | cons c cs => exact Or.inr ⟨c.Message, rfl⟩
  · subst hn
    have hz : Unmarshal body = .ok APIResponse.zero := hu
    rw [parse_of_unmarshal_ok w body _ hz]
    rfl
  · subst hms
    have hz : Unmarshal body = .ok APIResponse.zero := by
      rw [hu]
      simp only [decodeAPIResponse]
      apply foldlM_of_no_match decodeResponseField (fun kv => keyMatches kv.1 "choices")
      · intro a b hb
        simp [decodeResponseField, hb]
      · exact hno
    rw [parse_of_unmarshal_ok w body _ hz]
    rfl
  · subst hshape
    obtain ⟨cs, hcs⟩ :=
      Unmarshal_of_empty_first_choice body pre post k e rest hj hk hpre hpost he hrest
    rw [parse_of_unmarshal_ok w body _ hcs]
    rfl

/-- C5 amended, at two bodies.  In `{"choices":"x"}` the value of `choices` is
a string, and the parsing step fails with the parse error.  In
`{"choices":[{}]}` the first choice stores nothing, and the parsing step
succeeds with the message whose role and content are empty. -/
theorem C5_type_mismatch_witness :
    FetchLLM.parse (answering 200 "") "\x7b\"choices\":\"x\"\x7d"
        = .error "error unmarshaling response: json: cannot unmarshal"
      ∧ FetchLLM.parse (answering 200 "") "\x7b\"choices\":[\x7b\x7d]\x7d" = .ok ⟨"", ""⟩ :=
  ⟨(C5_type_mismatch (answering 200 "") "\x7b\"choices\":\"x\"\x7d"
      (.obj [("choices", .str "x")]) rfl).1 rfl,
   (C5_type_mismatch (answering 200 "") "\x7b\"choices\":[\x7b\x7d]\x7d"
      (.obj [("choices", .arr [.obj []])]) rfl).2.2.2.2
      [] "choices" (.obj []) [] [] rfl rfl rfl rfl rfl rfl⟩

/-! ## C6, C7: the secret loader -/

/-- C6: when `API_KEY` is unset or empty in the environment in which
`GetAPIKey` looks it up (the process environment once `.env` has been read into
it), `GetAPIKey` ends the process through `log.Fatal`, and `Request`, and with
it `FetchLLM`, makes no HTTP call. -/
theorem C6_missing_key_no_call (w : World) (req : APIRequest)
    (h : ∀ env, godotenvLoad w.dotenv w.environ = .ok env → Getenv env "API_KEY" = "") :
    ∃ msg, (msg = "Error loading .env file" ∨ msg = "API_KEY is not set")
      ∧ GetAPIKey w = .fatal msg
      ∧ (Request w req).calls = []
      ∧ (Request w req).out = .fatal msg
      ∧ ∀ p, (FetchLLM w p).calls = [] := by
  have hg : ∃ msg, (msg = "Error loading .env file" ∨ msg = "API_KEY is not set")
      ∧ GetAPIKey w = .fatal msg := by
    unfold GetAPIKey
    cases hl : godotenvLoad w.dotenv w.environ with
    | error e => exact ⟨_, Or.inl rfl, rfl⟩
    | ok env => exact ⟨_, Or.inr rfl, by simp [h env hl]⟩
  obtain ⟨msg, hmsg, hk⟩ := hg
  have hreq : ∀ r, Request w r = ⟨[], .fatal msg⟩ := by
    intro r
    unfold Request
    rw [hk]
  refine ⟨msg, hmsg, hk, by rw [hreq], by rw [hreq], fun p => ?_⟩
  simp only [FetchLLM, hreq]

/-- C6, in a world where `.env` loads and nothing sets `API_KEY`: the loader
ends the process and `Request` makes no call. -/
theorem C6_missing_key_no_call_witness :
    ∃ msg, (msg = "Error loading .env file" ∨ msg = "API_KEY is not set")
      ∧ GetAPIKey withoutKey = .fatal msg
      ∧ (Request withoutKey ⟨MODEL, GenerateLLMPrompt "hi\n"⟩).calls = []
      ∧ (Request withoutKey ⟨MODEL, GenerateLLMPrompt "hi\n"⟩).out = .fatal msg
      ∧ ∀ p, (FetchLLM withoutKey p).calls = [] :=
  C6_missing_key_no_call withoutKey ⟨MODEL, GenerateLLMPrompt "hi\n"⟩
    (fun env hl => by
      have he : env = [] := by
        have h2 : (Except.ok [] : Except String Environ) = .ok env := hl
        exact (Except.ok.inj h2).symm
      rw [he]
      rfl)

/-- C7 as stated fails: with `API_KEY` set to a non-empty value and no file
`.env`, `GetAPIKey` does not return the key; it ends the process with
`Error loading .env file`. -/
theorem C7_counterexample :
    withoutEnvFile.dotenv = none
      ∧ LookupEnv withoutEnvFile.environ "API_KEY" = some "sk-or-test"
      ∧ GetAPIKey withoutEnvFile = .fatal "Error loading .env file"
      ∧ ¬ (∀ (w : World) (k : String), w.dotenv = none →
            LookupEnv w.environ "API_KEY" = some k → k ≠ "" → GetAPIKey w = .ret k) := by
  refine ⟨rfl, rfl, rfl, fun h => ?_⟩
  have h1 := h withoutEnvFile "sk-or-test" rfl rfl (by decide)
  have h2 : GetAPIKey withoutEnvFile = .fatal "Error loading .env file" := rfl
  rw [h2] at h1
  cases h1

/-- C7, amended: with `API_KEY` set to a non-empty value in the process
environment, `GetAPIKey` returns that value when the file `.env` loads,
whatever it holds; when loading the file reports an error, `GetAPIKey` ends the
process with `Error loading .env file`. -/
theorem C7_env_file_required (w : World) (k : String)
    (hk : LookupEnv w.environ "API_KEY" = some k) (hne : k ≠ "") :
    (w.dotenv = none → GetAPIKey w = .fatal "Error loading .env file")
      ∧ (∀ kvs, w.dotenv = some kvs → GetAPIKey w = .ret k) := by
  constructor
  · intro hd
    unfold GetAPIKey godotenvLoad
    rw [hd]
  · intro kvs hd
    apply GetAPIKey_of_loaded w _ k _ _ hne
    · exact kvs.foldl
        (fun cur kv => if (LookupEnv w.environ kv.1).isSome then cur else Setenv cur kv.1 kv.2)
        w.environ
    · unfold godotenvLoad
      rw [hd]
    · unfold Getenv
      rw [godotenvLoad_keeps kvs w.environ "API_KEY" k hk w.environ hk]
      rfl

/-- C7 amended, in a world where the key is set and `.env` loads: the loader
returns the key. -/
theorem C7_env_file_required_witness :
    GetAPIKey (answering 200 "") = .ret "sk-or-test" :=
  (C7_env_file_required (answering 200 "") "sk-or-test" rfl (by decide)).2 [] rfl

/-! ## C8: the driver on an error of `FetchLLM` -/

/-- C8 as stated fails: when the peer cannot be reached, `FetchLLM` returns an
error, and `main` leaves standard output at the label `User: `; the
description of the error is on standard error.  So the description is not
always part of what `main` writes to standard output. -/
theorem C8_counterexample :
    (FetchLLM unreachable "What is 2+2?\n").out
        = .ret (.error "error making request: dial tcp: connection refused")
      ∧ (main unreachable).stdout = "User: "
      ∧ (main unreachable).stderr = "error making request: dial tcp: connection refused\n"
      ∧ ¬ (∀ (w : World) (line e : String), ReadString w.stdin '\n' = .ok line →
            (FetchLLM w line).out = .ret (.error e) →
            e.toList <:+: (main w).stdout.toList) := by
  refine ⟨rfl, rfl, rfl, fun h => ?_⟩
  have h1 := h unreachable "What is 2+2?\n"
    "error making request: dial tcp: connection refused" rfl rfl
  have h2 : (main unreachable).stdout = "User: " := rfl
  rw [h2] at h1
  exact absurd h1.length_le (by decide)

/-- C8, amended: when `FetchLLM` returns an error for the line read, `main`
writes the description of the error and a newline to standard error, writes
nothing but the label `User: ` to standard output (no role or content line),
makes no call beyond those of `FetchLLM`, and returns normally. -/
theorem C8_error_to_stderr (w : World) (line e : String)
    (hr : ReadString w.stdin '\n' = .ok line)
    (he : (FetchLLM w line).out = .ret (.error e)) :
    main w = ⟨"User: ", e ++ "\n", (FetchLLM w line).calls, .returned⟩ := by
  unfold main
  rw [hr]
  simp only [he]

/-- C8 amended, when the peer cannot be reached. -/
theorem C8_error_to_stderr_witness :
    main unreachable
      = ⟨"User: ", "error making request: dial tcp: connection refused" ++ "\n",
          (FetchLLM unreachable "What is 2+2?\n").calls, .returned⟩ :=
  C8_error_to_stderr unreachable "What is 2+2?\n"
    "error making request: dial tcp: connection refused" rfl rfl

/-! ## C9, C10: the transport -/

/-- C9: when the credential is available and the peer answers the request with
any status code and a body that is read to its end, `Request` makes that one
call and returns exactly the body, with no error; and rewriting the status
codes of the peer's answers in any way changes neither the result of `Request`
nor that of `FetchLLM`. -/
theorem C9_status_not_inspected (w : World) (req : APIRequest) (key body : String)
    (status : Nat) (hk : GetAPIKey w = .ret key)
    (hd : w.Do ⟨"POST", URL,
        [("Authorization", "Bearer " ++ key), ("Content-Type", "application/json")],
        "\x7b\"model\":" ++ encodeString req.Model ++ ",\"messages\":"
          ++ marshalMessages req.Messages ++ "\x7d"⟩ = .ok ⟨status, body, none⟩) :
    (Request w req).out = .ret (.ok body)
      ∧ (Request w req).calls.length = 1
      ∧ ∀ (g : Nat → Nat) (p : String),
          Request (w.mapStatus g) req = Request w req
            ∧ FetchLLM (w.mapStatus g) p = FetchLLM w p := by
  have h := Request_of_key w req key hk
  simp only [hd, ReadAll] at h
  rw [h]
  exact ⟨rfl, rfl, fun g p => ⟨by rw [Request_mapStatus, h], FetchLLM_mapStatus w g p⟩⟩

/-- C9, for a peer that answers 500 with the body of the successful example:
`Request` returns the body, and `FetchLLM` returns the same message as with
status 200. -/
theorem C9_status_not_inspected_witness :
    (Request (answering 500 helloBody) ⟨MODEL, GenerateLLMPrompt "hi\n"⟩).out
        = .ret (.ok helloBody)
      ∧ (FetchLLM (answering 500 helloBody) "hi\n").out = .ret (.ok ⟨"assistant", "hello"⟩)
      ∧ (FetchLLM (answering 200 helloBody) "hi\n").out = .ret (.ok ⟨"assistant", "hello"⟩) :=
  ⟨(C9_status_not_inspected (answering 500 helloBody) ⟨MODEL, GenerateLLMPrompt "hi\n"⟩
      "sk-or-test" helloBody 500 rfl rfl).1, rfl, rfl⟩

/-- C10: for every request and every non-empty credential `C` found under
`API_KEY` once `.env` has loaded, the request is serialized (serialization
cannot fail) and `Request` calls `client.Do` exactly once, with method `POST`,
the constant `URL`, the headers `Authorization: Bearer C` and
`Content-Type: application/json`, and the serialization as body.  The body is
the text of an object with `model` and then `messages`; `messages` is `null`
for the nil slice and otherwise the bracketed, comma-separated texts of the
messages, each an object with `role` and then `content`.  Read back as JSON,
the body is exactly that object with the strings of the request. -/
theorem C10_one_post (w : World) (req : APIRequest) (env : Environ) (C : String)
    (hl : godotenvLoad w.dotenv w.environ = .ok env) (hC : Getenv env "API_KEY" = C)
    (hne : C ≠ "") :
    ∃ jsonBody, Marshal req = .ok jsonBody
      ∧ jsonBody = "\x7b\"model\":" ++ encodeString req.Model ++ ",\"messages\":"
          ++ marshalMessages req.Messages ++ "\x7d"
      ∧ (req.Messages = .nil → marshalMessages req.Messages = "null")
      ∧ (∀ ms, req.Messages = .of ms →
          marshalMessages req.Messages = "[" ++ ",".intercalate (ms.map (fun x =>
            "\x7b\"role\":" ++ encodeString x.Role ++ ",\"content\":"
              ++ encodeString x.Content ++ "\x7d")) ++ "]")
      ∧ parseJSON jsonBody = some (.obj [("model", .str req.Model),
          ("messages",
            match req.Messages with
            | .nil => .null
            | .of ms => .arr (ms.map (fun x =>
                .obj [("role", .str x.Role), ("content", .str x.Content)])))])
      ∧ (Request w req).calls = [⟨"POST", "https://openrouter.ai/api/v1/chat/completions",
          [("Authorization", "Bearer " ++ C), ("Content-Type", "application/json")],
          jsonBody⟩] := by
  refine ⟨_, rfl, rfl, fun hm => by rw [hm]; rfl, fun ms hm => by rw [hm]; rfl,
    parseJSON_Marshal req, ?_⟩
  rw [Request_of_key w req C (GetAPIKey_of_loaded w env C hl hC hne)]
  simp only []
  split
  · rfl
  · split <;> rfl

/-- C10, for the request `FetchLLM` builds from the line `What is 2+2?` with
its line terminator: the body on the wire and the single call.  The other
facts fix the text of the runes that are escaped, of the nil slice and of the
empty slice. -/
theorem C10_one_post_witness :
    Marshal ⟨MODEL, GenerateLLMPrompt "What is 2+2?\n"⟩
        = .ok ("\x7b\"model\":\"anthropic/claude-3-haiku\",\"messages\":["
          ++ "\x7b\"role\":\"system\",\"content\":\"You are a helpful assistant\"\x7d,"
          ++ "\x7b\"role\":\"user\",\"content\":\"What is 2+2?\\n\"\x7d]\x7d")
      ∧ encodeString "a<b>&\"c\"\\\x01\x1f\t\r\x08\x0c\x7fé"
          = "\"a\\u003cb\\u003e\\u0026\\\"c\\\"\\\\\\u0001\\u001f\\t\\r\\b\\f\x7fé\""
      ∧ Marshal ⟨"m", .nil⟩ = .ok "\x7b\"model\":\"m\",\"messages\":null\x7d"
      ∧ Marshal ⟨"m", .of []⟩ = .ok "\x7b\"model\":\"m\",\"messages\":[]\x7d"
      ∧ ∃ jsonBody, Marshal ⟨MODEL, GenerateLLMPrompt "What is 2+2?\n"⟩ = .ok jsonBody
        ∧ parseJSON jsonBody = some (.obj [("model", .str "anthropic/claude-3-haiku"),
            ("messages", .arr [
              .obj [("role", .str "system"), ("content", .str "You are a helpful assistant")],
              .obj [("role", .str "user"), ("content", .str "What is 2+2?\n")]])])
        ∧ (Request (answering 200 helloBody) ⟨MODEL, GenerateLLMPrompt "What is 2+2?\n"⟩).calls
          = [⟨"POST", "https://openrouter.ai/api/v1/chat/completions",
              [("Authorization", "Bearer " ++ "sk-or-test"),
                ("Content-Type", "application/json")], jsonBody⟩] := by
  refine ⟨by rfl, by rfl, by rfl, by rfl, ?_⟩
  obtain ⟨jsonBody, h1, _, _, _, h5, h6⟩ :=
    C10_one_post (answering 200 helloBody) ⟨MODEL, GenerateLLMPrompt "What is 2+2?\n"⟩
      [("API_KEY", "sk-or-test")] "sk-or-test" rfl rfl (by decide)
  exact ⟨jsonBody, h1, h5, h6⟩

end OpenRouter
